import Mathlib

/-!
Verification of the scoring engine of the Unify repository.

The engine under study is `execute_scoring_algorithm` in `src/architect.py`
(with a near-duplicate copy in `src/unify.py`).  The Python floats are
modelled as exact rationals (`ℚ`); Python's `round(x, 2)` (banker's
rounding, round-half-to-even) is modelled by `round2`; the per-record
`try/except` that skips a record whose `rating` fails numeric coercion is
modelled by making `rating` an `Option ℚ` and by `processEmployee`
returning `Option ScoredRecord`.  Python's stable `list.sort(key=...,
reverse=True)` is modelled by the stable descending insertion sort
`sortDesc`.
-/

namespace Unify

/-- Python's `str.capitalize()` on ASCII data: first character uppercased,
all following characters lowercased. -/
def pyCapitalize (s : String) : String :=
  match s.data with
  | [] => s
  | c :: cs => String.mk (c.toUpper :: cs.map Char.toLower)

/-- Python's `round` to the nearest integer, halves to the even neighbour. -/
def pyRound (q : ℚ) : ℤ :=
  if q - ⌊q⌋ < 1/2 then ⌊q⌋
  else if q - ⌊q⌋ > 1/2 then ⌊q⌋ + 1
  else if ⌊q⌋ % 2 = 0 then ⌊q⌋ else ⌊q⌋ + 1

/-- Python's `round(q, 2)`. -/
def round2 (q : ℚ) : ℚ := (pyRound (q * 100) : ℚ) / 100

/-- `EmployeeInput` of `src/architect.py`.  `talent` is `Union[str, int]`;
`rating = none` models a record whose rating fails numeric coercion (the
malformed-record case that the engine's `try/except` skips). -/
structure EmployeeInput where
  employee_id : Option String := none
  name : String
  rating : Option ℚ
  talent : String ⊕ ℤ
  studies : String
  salary : ℚ
  job : String
deriving Repr, DecidableEq

/-- An element of `processed_staff` in `execute_scoring_algorithm`. -/
structure ScoredRecord where
  name : String
  role : String
  salary : ℚ
  final_score : ℚ
  raw_rating : ℚ
deriving Repr, DecidableEq

/-- An element of `flagged_risks` in `execute_scoring_algorithm`. -/
structure RiskFlag where
  name : String
  role : String
  salary : ℚ
  merit_score : ℚ
  discrepancy : String
deriving Repr, DecidableEq

/-- The `statistics` part of the returned report. -/
structure Statistics where
  total_employees : ℕ
  average_merit_score : ℚ
  hq_count : ℕ
  remote_count : ℕ
deriving Repr, DecidableEq

/-- An element of `top_talent_hq` in the returned report. -/
structure TopTalent where
  name : String
  score : ℚ
deriving Repr, DecidableEq

/-- The `allocation_summary` part of the returned report. -/
structure AllocationSummary where
  headquarters_roster : List String
  remote_roster : List String
deriving Repr, DecidableEq

/-- The dictionary returned by `execute_scoring_algorithm`. -/
structure Report where
  status : String
  statistics : Statistics
  top_talent_hq : List TopTalent
  allocation_summary : AllocationSummary
  risk_flags : List RiskFlag
deriving Repr, DecidableEq

/-- `str(emp.talent).capitalize()`. -/
def talent_str (t : String ⊕ ℤ) : String :=
  pyCapitalize (Sum.elim id (fun n => toString n) t)

/-- The `talent_map` dictionary of `src/architect.py`. -/
def talent_map : List (String × ℤ) :=
  [("High", 5), ("Medium", 3), ("Low", 1),
   ("5", 5), ("4", 4), ("3", 3), ("2", 2), ("1", 1)]

/-- Python's `int(...)` on a string of decimal digits. -/
def pyIntOfDigits (s : String) : ℤ :=
  (s.data.foldl (fun n c => 10 * n + (c.toNat - 48)) 0 : ℕ)

/-- The talent branch of the calculation loop in `src/architect.py`:
`talent_map` lookup, then the (unreachable, since `talent_map` already
contains `"1"..."5"`) digit branch, then the default `1`. -/
def talent_score (t : String ⊕ ℤ) : ℤ :=
  match talent_map.find? (fun kv => kv.1 == talent_str t) with
  | some kv => kv.2
  | none =>
    if talent_str t ∈ (["1", "2", "3", "4", "5"] : List String) then
      pyIntOfDigits (talent_str t)
    else 1

/-- The `education_map` dictionary of `src/architect.py`. -/
def education_table : List (String × ℤ) :=
  [("PhD", 5), ("Doctorate", 5), ("MD", 5), ("JD", 5),
   ("Master", 4), ("Masters", 4), ("MSc", 4),
   ("Bachelor", 3), ("Bachelors", 3), ("BSc", 3), ("BSN", 3),
   ("Associate", 2), ("High School", 1)]

/-- `education_map.get(emp.studies, 1)` in `src/architect.py`. -/
def education_map (s : String) : ℤ :=
  match education_table.find? (fun kv => kv.1 == s) with
  | some kv => kv.2
  | none => 1

def WEIGHT_PERFORMANCE : ℚ := 1/2
def WEIGHT_TALENT : ℚ := 3/10
def WEIGHT_EDUCATION : ℚ := 1/5
def HQ_CAPACITY : ℕ := 20

/-- One iteration of the calculation loop of `execute_scoring_algorithm`:
`none` models the `except ... continue` path (rating fails coercion). -/
def processEmployee (emp : EmployeeInput) : Option ScoredRecord :=
  match emp.rating with
  | none => none
  | some r =>
    let ts : ℤ := talent_score emp.talent
    let es : ℤ := education_map emp.studies
    let fs : ℚ := r * WEIGHT_PERFORMANCE + (ts : ℚ) * WEIGHT_TALENT
      + (es : ℚ) * WEIGHT_EDUCATION
    some { name := emp.name, role := emp.job, salary := emp.salary,
           final_score := round2 fs, raw_rating := r }

/-- The `processed_staff` list before sorting. -/
def processed_staff (employees : List EmployeeInput) : List ScoredRecord :=
  employees.filterMap processEmployee

/-- Descending order on final scores (`b` scores no more than `a`). -/
def scoreGE (a b : ScoredRecord) : Prop := b.final_score ≤ a.final_score

instance : DecidableRel scoreGE := fun a b => by
  unfold scoreGE; infer_instance

/-- Insert a record into a descending-sorted list, after all records of
equal or higher score (the placement a stable sort gives to a later
arrival). -/
def insertDesc (p : ScoredRecord) : List ScoredRecord → List ScoredRecord
  | [] => [p]
  | q :: qs =>
    if q.final_score < p.final_score then p :: q :: qs
    else q :: insertDesc p qs

/-- Stable descending sort by `final_score`: the model of
`processed_staff.sort(key=lambda x: x['final_score'], reverse=True)`. -/
def sortDesc (l : List ScoredRecord) : List ScoredRecord :=
  l.foldl (fun acc p => insertDesc p acc) []

/-- Average of the (already rounded) final scores,
`sum(...) / total_staff if total_staff > 0 else 0`. -/
def avgOf (staff : List ScoredRecord) : ℚ :=
  if staff.length > 0 then (staff.map (·.final_score)).sum / staff.length
  else 0

/-- The risk predicate: `final_score < avg_score and salary > 100000`. -/
def riskCond (avg : ℚ) (p : ScoredRecord) : Prop :=
  p.final_score < avg ∧ p.salary > 100000

instance (avg : ℚ) : DecidablePred (riskCond avg) := fun p => by
  unfold riskCond; infer_instance

/-- The dictionary appended to `flagged_risks` for a risky record. -/
def mkRiskFlag (p : ScoredRecord) : RiskFlag :=
  { name := p.name, role := p.role, salary := p.salary,
    merit_score := p.final_score, discrepancy := "High Salary / Low Merit" }

/-- Steps 4–6 of `execute_scoring_algorithm` (ranking, allocation, risk
analysis, report assembly), as a function of the processed staff. -/
def buildReport (staff : List ScoredRecord) : Report :=
  let ranked := sortDesc staff
  let hq_team := ranked.take HQ_CAPACITY
  let remote_team := ranked.drop HQ_CAPACITY
  let total_staff := ranked.length
  let avg_score := avgOf ranked
  let flagged_risks :=
    (ranked.filter (fun p => decide (riskCond avg_score p))).map mkRiskFlag
  { status := "success",
    statistics :=
      { total_employees := total_staff,
        average_merit_score := round2 avg_score,
        hq_count := hq_team.length,
        remote_count := remote_team.length },
    top_talent_hq :=
      (hq_team.take 3).map (fun p => { name := p.name, score := p.final_score }),
    allocation_summary :=
      { headquarters_roster := hq_team.map (·.name),
        remote_roster := remote_team.map (·.name) },
    risk_flags := flagged_risks }

/-- `execute_scoring_algorithm` of `src/architect.py`. -/
def execute_scoring_algorithm (employees : List EmployeeInput) : Report :=
  buildReport (processed_staff employees)

/-! ### The duplicated engine of `src/unify.py` -/

/-- The `education_map` dictionary of `src/unify.py`: it lacks the
`MD`, `JD`, `MSc`, `BSc` and `BSN` entries of the architect copy. -/
def education_table_unify : List (String × ℤ) :=
  [("PhD", 5), ("Doctorate", 5), ("Master", 4), ("Masters", 4),
   ("Bachelor", 3), ("Bachelors", 3), ("Associate", 2), ("High School", 1)]

/-- `education_map.get(emp.studies, 1)` in `src/unify.py`. -/
def education_map_unify (s : String) : ℤ :=
  match education_table_unify.find? (fun kv => kv.1 == s) with
  | some kv => kv.2
  | none => 1

/-- Python's `str.isdigit()` on ASCII data. -/
def pyIsDigit (s : String) : Bool :=
  !s.isEmpty && s.data.all (·.isDigit)

/-- The talent branch of `src/unify.py`:
`talent_map.get(talent_str, int(talent_str) if talent_str.isdigit() and
1<=int(talent_str)<=5 else 1)`. -/
def talent_score_unify (t : String ⊕ ℤ) : ℤ :=
  match talent_map.find? (fun kv => kv.1 == talent_str t) with
  | some kv => kv.2
  | none =>
    if pyIsDigit (talent_str t) ∧ 1 ≤ pyIntOfDigits (talent_str t) ∧
        pyIntOfDigits (talent_str t) ≤ 5 then
      pyIntOfDigits (talent_str t)
    else 1

/-- One iteration of the calculation loop of `src/unify.py`. -/
def processEmployee_unify (emp : EmployeeInput) : Option ScoredRecord :=
  match emp.rating with
  | none => none
  | some r =>
    let ts : ℤ := talent_score_unify emp.talent
    let es : ℤ := education_map_unify emp.studies
    let fs : ℚ := r * WEIGHT_PERFORMANCE + (ts : ℚ) * WEIGHT_TALENT
      + (es : ℚ) * WEIGHT_EDUCATION
    some { name := emp.name, role := emp.job, salary := emp.salary,
           final_score := round2 fs, raw_rating := r }

/-- The `processed_staff` list of `src/unify.py`. -/
def processed_staff_unify (employees : List EmployeeInput) : List ScoredRecord :=
  employees.filterMap processEmployee_unify

/-- The dictionary returned by `execute_scoring_algorithm` in
`src/unify.py`: its `risk_flags` are the raw processed dictionaries
(with `final_score` and `raw_rating`, without a `discrepancy` label). -/
structure ReportU where
  status : String
  statistics : Statistics
  top_talent_hq : List TopTalent
  allocation_summary : AllocationSummary
  risk_flags : List ScoredRecord
deriving Repr, DecidableEq

/-- Ranking, allocation, risk analysis and report assembly of
`src/unify.py`. -/
def buildReport_unify (staff : List ScoredRecord) : ReportU :=
  let ranked := sortDesc staff
  let hq_team := ranked.take 20
  let remote_team := ranked.drop 20
  let avg := avgOf ranked
  let risks := ranked.filter (fun p => decide (riskCond avg p))
  { status := "success",
    statistics :=
      { total_employees := ranked.length,
        average_merit_score := round2 avg,
        hq_count := hq_team.length,
        remote_count := remote_team.length },
    top_talent_hq :=
      (hq_team.take 3).map (fun p => { name := p.name, score := p.final_score }),
    allocation_summary :=
      { headquarters_roster := hq_team.map (·.name),
        remote_roster := remote_team.map (·.name) },
    risk_flags := risks }

/-- `execute_scoring_algorithm` of `src/unify.py`. -/
def execute_scoring_algorithm_unify (employees : List EmployeeInput) : ReportU :=
  buildReport_unify (processed_staff_unify employees)

/-! ### Concrete inputs used in the examples and witnesses -/

/-- A top-rated employee: `rating=5.0, talent="High", studies="PhD"`. -/
def ePhD : EmployeeInput :=
  { name := "Xena", rating := some 5, talent := Sum.inl "High",
    studies := "PhD", salary := 120000, job := "Partner" }

/-- First of two employees tied at final score 5.0. -/
def eTieA : EmployeeInput :=
  { name := "Alice", rating := some 5, talent := Sum.inl "High",
    studies := "PhD", salary := 90000, job := "Counsel" }

/-- Second of two employees tied at final score 5.0. -/
def eTieB : EmployeeInput :=
  { name := "Bob", rating := some 5, talent := Sum.inl "High",
    studies := "PhD", salary := 90000, job := "Counsel" }

/-- Scores 1.33 with a salary above the risk threshold. -/
def eRiskA : EmployeeInput :=
  { name := "Ann", rating := some (83/50), talent := Sum.inl "Low",
    studies := "None", salary := 150000, job := "Associate" }

/-- Scores 1.33 with a salary below the risk threshold. -/
def eRiskB : EmployeeInput :=
  { name := "Ben", rating := some (83/50), talent := Sum.inl "Low",
    studies := "None", salary := 50000, job := "Associate" }

/-- Scores 1.34 with a salary below the risk threshold. -/
def eRiskC : EmployeeInput :=
  { name := "Cal", rating := some (42/25), talent := Sum.inl "Low",
    studies := "None", salary := 50000, job := "Associate" }

/-- The risk-analysis batch: average final score 4/3, reported as 1.33. -/
def riskBatch : List EmployeeInput := [eRiskA, eRiskB, eRiskC]

/-- Studies `"MSc"`: the two copies of the education table disagree. -/
def eMSc : EmployeeInput :=
  { name := "Mia", rating := some 3, talent := Sum.inl "Low",
    studies := "MSc", salary := 0, job := "Analyst" }

/-- The scored record the engine produces for `eRiskA`. -/
def recRiskA : ScoredRecord :=
  { name := "Ann", role := "Associate", salary := 150000,
    final_score := 133/100, raw_rating := 83/50 }

/-- The scored record the engine produces for `eRiskB`. -/
def recRiskB : ScoredRecord :=
  { name := "Ben", role := "Associate", salary := 50000,
    final_score := 133/100, raw_rating := 83/50 }

/-- The scored record the engine produces for `eRiskC`. -/
def recRiskC : ScoredRecord :=
  { name := "Cal", role := "Associate", salary := 50000,
    final_score := 134/100, raw_rating := 42/25 }

/-- The scored record the engine produces for `ePhD`. -/
def recPhD : ScoredRecord :=
  { name := "Xena", role := "Partner", salary := 120000,
    final_score := 5, raw_rating := 5 }

/-- The scored record the engine produces for `eTieA`. -/
def recTieA : ScoredRecord :=
  { name := "Alice", role := "Counsel", salary := 90000,
    final_score := 5, raw_rating := 5 }

/-- The scored record the engine produces for `eTieB`. -/
def recTieB : ScoredRecord :=
  { name := "Bob", role := "Counsel", salary := 90000,
    final_score := 5, raw_rating := 5 }

/-- The scored record the architect engine produces for `eMSc`
(education 4, final score 2.6). -/
def recMSc : ScoredRecord :=
  { name := "Mia", role := "Analyst", salary := 0,
    final_score := 13/5, raw_rating := 3 }

/-- The scored record the unify engine produces for `eMSc`
(education 1, final score 2.0). -/
def recMScU : ScoredRecord :=
  { name := "Mia", role := "Analyst", salary := 0,
    final_score := 2, raw_rating := 3 }

/-! ### Helper lemmas about the stable descending sort -/

theorem insertDesc_perm (p : ScoredRecord) (l : List ScoredRecord) :
    List.Perm (insertDesc p l) (p :: l) := by
  induction l with
  | nil => exact List.Perm.refl _
  | cons q qs ih =>
    unfold insertDesc
    by_cases h : q.final_score < p.final_score
    · simp only [h, if_true]
      exact List.Perm.refl _
    · simp only [h, if_false]
      exact (ih.cons q).trans (List.Perm.swap p q qs)

theorem sortDesc_foldl_perm (l acc : List ScoredRecord) :
    List.Perm (l.foldl (fun a p => insertDesc p a) acc) (acc ++ l) := by
  induction l generalizing acc with
  | nil => simp
  | cons p l ih =>
    have h1 := ih (insertDesc p acc)
    have h2 : List.Perm (insertDesc p acc ++ l) (p :: (acc ++ l)) :=
      (insertDesc_perm p acc).append_right l
    have h3 : List.Perm (acc ++ p :: l) (p :: (acc ++ l)) := List.perm_middle
    exact (h1.trans h2).trans h3.symm

theorem sortDesc_perm (l : List ScoredRecord) : List.Perm (sortDesc l) l := by
  simpa using sortDesc_foldl_perm l []

theorem insertDesc_pairwise (p : ScoredRecord) (l : List ScoredRecord)
    (h : l.Pairwise scoreGE) : (insertDesc p l).Pairwise scoreGE := by
  induction l with
  | nil => simp [insertDesc]
  | cons q qs ih =>
    rcases List.pairwise_cons.mp h with ⟨hq, hqs⟩
    unfold insertDesc
    by_cases hlt : q.final_score < p.final_score
    · simp only [hlt, if_true]
      refine List.pairwise_cons.mpr ⟨?_, h⟩
      intro x hx
      rcases List.mem_cons.mp hx with hx | hx
      · subst hx; exact le_of_lt hlt
      · exact le_trans (hq x hx) (le_of_lt hlt)
    · simp only [hlt, if_false]
      refine List.pairwise_cons.mpr ⟨?_, ih hqs⟩
      intro x hx
      rcases List.mem_cons.mp ((insertDesc_perm p qs).mem_iff.mp hx) with hx | hx
      · subst hx; exact le_of_not_lt hlt
      · exact hq x hx

theorem sortDesc_foldl_pairwise (l acc : List ScoredRecord)
    (h : acc.Pairwise scoreGE) :
    (l.foldl (fun a p => insertDesc p a) acc).Pairwise scoreGE := by
  induction l generalizing acc with
  | nil => exact h
  | cons p l ih => exact ih _ (insertDesc_pairwise p acc h)

theorem sortDesc_pairwise (l : List ScoredRecord) :
    (sortDesc l).Pairwise scoreGE :=
  sortDesc_foldl_pairwise l [] (List.Pairwise.nil)

theorem filter_insertDesc_of_eq (s : ℚ) (p : ScoredRecord)
    (acc : List ScoredRecord) (hp : p.final_score = s)
    (hacc : acc.Pairwise scoreGE) :
    (insertDesc p acc).filter (fun q => decide (q.final_score = s)) =
      acc.filter (fun q => decide (q.final_score = s)) ++ [p] := by
  induction acc with
  | nil => simp [insertDesc, hp]
  | cons q qs ih =>
    rcases List.pairwise_cons.mp hacc with ⟨hq, hqs⟩
    unfold insertDesc
    by_cases hlt : q.final_score < p.final_score
    · simp only [hlt, if_true]
      have hq_ne : ¬ q.final_score = s := by
        intro h; rw [h, hp] at hlt; exact lt_irrefl _ hlt
      have hqs_nil :
          qs.filter (fun q => decide (q.final_score = s)) = [] := by
        refine List.filter_eq_nil_iff.mpr ?_
        intro x hx
        have hxle : x.final_score ≤ q.final_score := hq x hx
        have hxs : ¬ x.final_score = s := by
          intro h
          rw [h] at hxle
          rw [hp] at hlt
          exact absurd (lt_of_le_of_lt hxle hlt) (lt_irrefl s)
        simpa using hxs
      simp [List.filter_cons, hp, hq_ne, hqs_nil]
    · simp only [hlt, if_false]
      rw [List.filter_cons, List.filter_cons, ih hqs]
      by_cases hqe : q.final_score = s <;> simp [hqe]

theorem filter_insertDesc_of_ne (s : ℚ) (p : ScoredRecord)
    (acc : List ScoredRecord) (hp : ¬ p.final_score = s) :
    (insertDesc p acc).filter (fun q => decide (q.final_score = s)) =
      acc.filter (fun q => decide (q.final_score = s)) := by
  induction acc with
  | nil => simp [insertDesc, hp]
  | cons q qs ih =>
    unfold insertDesc
    by_cases hlt : q.final_score < p.final_score
    · simp [hlt, List.filter_cons, hp]
    · simp only [hlt, if_false]
      rw [List.filter_cons, List.filter_cons, ih]

theorem filter_sortDesc_foldl (s : ℚ) (l acc : List ScoredRecord)
    (hacc : acc.Pairwise scoreGE) :
    (l.foldl (fun a p => insertDesc p a) acc).filter
        (fun q => decide (q.final_score = s)) =
      acc.filter (fun q => decide (q.final_score = s)) ++
        l.filter (fun q => decide (q.final_score = s)) := by
  induction l generalizing acc with
  | nil => simp
  | cons p l ih =>
    have step := ih (insertDesc p acc) (insertDesc_pairwise p acc hacc)
    rw [List.foldl_cons, step]
    by_cases hp : p.final_score = s
    · rw [filter_insertDesc_of_eq s p acc hp hacc]
      simp [List.filter_cons, hp]
    · rw [filter_insertDesc_of_ne s p acc hp]
      simp [List.filter_cons, hp]

theorem filter_sortDesc (s : ℚ) (l : List ScoredRecord) :
    (sortDesc l).filter (fun q => decide (q.final_score = s)) =
      l.filter (fun q => decide (q.final_score = s)) := by
  simpa using filter_sortDesc_foldl s l [] List.Pairwise.nil

theorem avgOf_perm (l₁ l₂ : List ScoredRecord) (h : List.Perm l₁ l₂) :
    avgOf l₁ = avgOf l₂ := by
  unfold avgOf
  rw [h.length_eq, (h.map (·.final_score)).sum_eq]

/-! ### Helper lemmas about Python's rounding -/

theorem le_pyRound (a : ℤ) (q : ℚ) (h : (a:ℚ) ≤ q) : a ≤ pyRound q := by
  unfold pyRound
  have hf : a ≤ ⌊q⌋ := Int.le_floor.mpr h
  split_ifs <;> omega

theorem pyRound_le (b : ℤ) (q : ℚ) (h : q ≤ (b:ℚ)) : pyRound q ≤ b := by
  unfold pyRound
  have hfb : ⌊q⌋ ≤ b := by
    have h1 := Int.floor_le_floor h
    rwa [Int.floor_intCast] at h1
  split_ifs with h1 h2 h3
  · exact hfb
  · by_contra hc
    push_neg at hc
    have hqb : ⌊q⌋ = b := by omega
    rw [hqb] at h2
    have hq0 : q - (b:ℚ) ≤ 0 := sub_nonpos.mpr h
    have : (1:ℚ)/2 < 0 := lt_of_lt_of_le h2 hq0
    norm_num at this
  · exact hfb
  · have heq : q - (⌊q⌋:ℚ) = 1/2 := le_antisymm (not_lt.mp h2) (not_lt.mp h1)
    have hcast : (⌊q⌋:ℚ) < (b:ℚ) := by linarith
    have : ⌊q⌋ < b := by exact_mod_cast hcast
    omega

theorem round2_le (b : ℤ) (q : ℚ) (h : q ≤ (b:ℚ)/100) : round2 q ≤ (b:ℚ)/100 := by
  unfold round2
  have h100 : q * 100 ≤ (b:ℚ) := by linarith
  have hp := pyRound_le b (q * 100) h100
  have hpc : ((pyRound (q * 100)):ℚ) ≤ (b:ℚ) := by exact_mod_cast hp
  linarith

theorem le_round2 (a : ℤ) (q : ℚ) (h : (a:ℚ)/100 ≤ q) : (a:ℚ)/100 ≤ round2 q := by
  unfold round2
  have h100 : (a:ℚ) ≤ q * 100 := by linarith
  have hp := le_pyRound a (q * 100) h100
  have hpc : ((a:ℚ)) ≤ ((pyRound (q * 100)):ℚ) := by exact_mod_cast hp
  linarith

theorem round2_eq (q : ℚ) (f : ℤ) (h1 : ⌊q * 100⌋ = f)
    (h2 : q * 100 - (f:ℚ) < 1/2) : round2 q = (f:ℚ)/100 := by
  unfold round2 pyRound
  rw [h1, if_pos h2]

theorem round2_eq_int (q : ℚ) (n : ℤ) (h : q * 100 = (n:ℚ)) :
    round2 q = (n:ℚ)/100 := by
  refine round2_eq q n ?_ ?_
  · rw [h, Int.floor_intCast]
  · rw [h]; norm_num

theorem talent_score_range (t : String ⊕ ℤ) :
    1 ≤ talent_score t ∧ talent_score t ≤ 5 := by
  unfold talent_score
  cases h : talent_map.find? (fun kv => kv.1 == talent_str t) with
  | none =>
    have hdig : ∀ d ∈ (["1", "2", "3", "4", "5"] : List String),
        1 ≤ pyIntOfDigits d ∧ pyIntOfDigits d ≤ 5 := by decide
    by_cases hmem : talent_str t ∈ (["1", "2", "3", "4", "5"] : List String)
    · simpa [hmem] using hdig _ hmem
    · simp [hmem]
  | some kv =>
    have hmem := List.mem_of_find?_eq_some h
    have hall : ∀ kv ∈ talent_map, 1 ≤ kv.2 ∧ kv.2 ≤ 5 := by decide
    simpa using hall kv hmem

theorem education_map_range (s : String) :
    1 ≤ education_map s ∧ education_map s ≤ 5 := by
  unfold education_map
  cases h : education_table.find? (fun kv => kv.1 == s) with
  | none => norm_num
  | some kv =>
    have hmem := List.mem_of_find?_eq_some h
    have hall : ∀ kv ∈ education_table, 1 ≤ kv.2 ∧ kv.2 ≤ 5 := by decide
    simpa using hall kv hmem

/-! ### Evaluation lemmas for the concrete inputs -/

theorem processEmployee_eval (emp : EmployeeInput) (r : ℚ) (ts es n : ℤ)
    (hr : emp.rating = some r)
    (ht : talent_score emp.talent = ts)
    (he : education_map emp.studies = es)
    (hn : (r * WEIGHT_PERFORMANCE + (ts:ℚ) * WEIGHT_TALENT +
      (es:ℚ) * WEIGHT_EDUCATION) * 100 = (n:ℚ)) :
    processEmployee emp =
      some ⟨emp.name, emp.job, emp.salary, (n:ℚ)/100, r⟩ := by
  simp only [processEmployee, hr]
  rw [ht, he, round2_eq_int _ n hn]

theorem processEmployee_unify_eval (emp : EmployeeInput) (r : ℚ) (ts es n : ℤ)
    (hr : emp.rating = some r)
    (ht : talent_score_unify emp.talent = ts)
    (he : education_map_unify emp.studies = es)
    (hn : (r * WEIGHT_PERFORMANCE + (ts:ℚ) * WEIGHT_TALENT +
      (es:ℚ) * WEIGHT_EDUCATION) * 100 = (n:ℚ)) :
    processEmployee_unify emp =
      some ⟨emp.name, emp.job, emp.salary, (n:ℚ)/100, r⟩ := by
  simp only [processEmployee_unify, hr]
  rw [ht, he, round2_eq_int _ n hn]

theorem pe_eRiskA : processEmployee eRiskA = some recRiskA := by
  have h := processEmployee_eval eRiskA (83/50) 1 1 133 rfl (by decide)
    (by decide) (by norm_num [WEIGHT_PERFORMANCE, WEIGHT_TALENT, WEIGHT_EDUCATION])
  simpa [eRiskA, recRiskA] using h

theorem pe_eRiskB : processEmployee eRiskB = some recRiskB := by
  have h := processEmployee_eval eRiskB (83/50) 1 1 133 rfl (by decide)
    (by decide) (by norm_num [WEIGHT_PERFORMANCE, WEIGHT_TALENT, WEIGHT_EDUCATION])
  simpa [eRiskB, recRiskB] using h

theorem pe_eRiskC : processEmployee eRiskC = some recRiskC := by
  have h := processEmployee_eval eRiskC (42/25) 1 1 134 rfl (by decide)
    (by decide) (by norm_num [WEIGHT_PERFORMANCE, WEIGHT_TALENT, WEIGHT_EDUCATION])
  simpa [eRiskC, recRiskC] using h

theorem pe_ePhD : processEmployee ePhD = some recPhD := by
  have h := processEmployee_eval ePhD 5 5 5 500 rfl (by decide)
    (by decide) (by norm_num [WEIGHT_PERFORMANCE, WEIGHT_TALENT, WEIGHT_EDUCATION])
  simpa [ePhD, recPhD, show (500:ℚ)/100 = 5 from by norm_num] using h

theorem pe_eTieA : processEmployee eTieA = some recTieA := by
  have h := processEmployee_eval eTieA 5 5 5 500 rfl (by decide)
    (by decide) (by norm_num [WEIGHT_PERFORMANCE, WEIGHT_TALENT, WEIGHT_EDUCATION])
  simpa [eTieA, recTieA, show (500:ℚ)/100 = 5 from by norm_num] using h

theorem pe_eTieB : processEmployee eTieB = some recTieB := by
  have h := processEmployee_eval eTieB 5 5 5 500 rfl (by decide)
    (by decide) (by norm_num [WEIGHT_PERFORMANCE, WEIGHT_TALENT, WEIGHT_EDUCATION])
  simpa [eTieB, recTieB, show (500:ℚ)/100 = 5 from by norm_num] using h

theorem pe_eMSc : processEmployee eMSc = some recMSc := by
  have h := processEmployee_eval eMSc 3 1 4 260 rfl (by decide)
    (by decide) (by norm_num [WEIGHT_PERFORMANCE, WEIGHT_TALENT, WEIGHT_EDUCATION])
  simpa [eMSc, recMSc, show (260:ℚ)/100 = 13/5 from by norm_num] using h

theorem peu_eMSc : processEmployee_unify eMSc = some recMScU := by
  have h := processEmployee_unify_eval eMSc 3 1 1 200 rfl (by decide)
    (by decide) (by norm_num [WEIGHT_PERFORMANCE, WEIGHT_TALENT, WEIGHT_EDUCATION])
  simpa [eMSc, recMScU, show (200:ℚ)/100 = 2 from by norm_num] using h

theorem processed_staff_riskBatch :
    processed_staff riskBatch = [recRiskA, recRiskB, recRiskC] := by
  simp only [processed_staff, riskBatch, List.filterMap_cons, List.filterMap_nil,
    pe_eRiskA, pe_eRiskB, pe_eRiskC]

theorem sortDesc_riskBatch :
    sortDesc [recRiskA, recRiskB, recRiskC] = [recRiskC, recRiskA, recRiskB] := by
  have hAB : ¬ (recRiskA.final_score < recRiskB.final_score) := by
    norm_num [recRiskA, recRiskB]
  have hAC : recRiskA.final_score < recRiskC.final_score := by
    norm_num [recRiskA, recRiskC]
  simp [sortDesc, insertDesc, hAB, hAC]

theorem avgOf_sorted_riskBatch :
    avgOf [recRiskC, recRiskA, recRiskB] = 4/3 := by
  norm_num [avgOf, recRiskA, recRiskB, recRiskC]

theorem avg_processed_riskBatch :
    avgOf (processed_staff riskBatch) = 4/3 := by
  rw [processed_staff_riskBatch]
  norm_num [avgOf, recRiskA, recRiskB, recRiskC]

theorem report_riskBatch_flags :
    (execute_scoring_algorithm riskBatch).risk_flags = [mkRiskFlag recRiskA] := by
  simp only [execute_scoring_algorithm, buildReport]
  rw [processed_staff_riskBatch, sortDesc_riskBatch, avgOf_sorted_riskBatch]
  have hC : ¬ riskCond (4/3) recRiskC := by
    intro h
    have := h.1
    norm_num [recRiskC] at this
  have hA : riskCond (4/3) recRiskA := by
    constructor
    · norm_num [recRiskA]
    · norm_num [recRiskA]
  have hB : ¬ riskCond (4/3) recRiskB := by
    intro h
    have := h.2
    norm_num [recRiskB] at this
  simp [List.filter_cons, hA, hB, hC]

theorem report_riskBatch_avg :
    (execute_scoring_algorithm riskBatch).statistics.average_merit_score =
      133/100 := by
  simp only [execute_scoring_algorithm, buildReport]
  rw [processed_staff_riskBatch, sortDesc_riskBatch, avgOf_sorted_riskBatch]
  have h : round2 ((4:ℚ)/3) = ((133:ℤ):ℚ)/100 := by
    refine round2_eq _ 133 ?_ ?_
    · norm_num
    · norm_num
  simp only [h]
  norm_num

theorem processed_staff_tieBatch :
    processed_staff [eTieA, eTieB] = [recTieA, recTieB] := by
  simp only [processed_staff, List.filterMap_cons, List.filterMap_nil,
    pe_eTieA, pe_eTieB]

theorem sortDesc_tieBatch :
    sortDesc [recTieA, recTieB] = [recTieA, recTieB] := by
  have hAB : ¬ (recTieA.final_score < recTieB.final_score) := by
    norm_num [recTieA, recTieB]
  simp [sortDesc, insertDesc, hAB]

theorem report_mscA_avg :
    (execute_scoring_algorithm [eMSc]).statistics.average_merit_score =
      13/5 := by
  simp only [execute_scoring_algorithm, buildReport, processed_staff,
    List.filterMap_cons, List.filterMap_nil, pe_eMSc]
  have hsort : sortDesc [recMSc] = [recMSc] := rfl
  rw [hsort]
  have havg : avgOf [recMSc] = 13/5 := by norm_num [avgOf, recMSc]
  rw [havg]
  have h : round2 ((13:ℚ)/5) = ((260:ℤ):ℚ)/100 := round2_eq_int _ 260 (by norm_num)
  rw [h]
  norm_num

theorem report_mscU_avg :
    (execute_scoring_algorithm_unify [eMSc]).statistics.average_merit_score =
      2 := by
  simp only [execute_scoring_algorithm_unify, buildReport_unify,
    processed_staff_unify, List.filterMap_cons, List.filterMap_nil, peu_eMSc]
  have hsort : sortDesc [recMScU] = [recMScU] := rfl
  rw [hsort]
  have havg : avgOf [recMScU] = 2 := by norm_num [avgOf, recMScU]
  rw [havg]
  have h : round2 ((2:ℚ)) = ((200:ℤ):ℚ)/100 := round2_eq_int _ 200 (by norm_num)
  rw [h]
  norm_num

/-! ### Agreement of the two engine copies on restricted inputs -/

theorem find?_of_filter_agree (l : List (String × ℤ)) (p q : String × ℤ → Bool)
    (h : ∀ x ∈ l, p x = true → q x = true) :
    (l.filter q).find? p = l.find? p := by
  induction l with
  | nil => rfl
  | cons a t ih =>
    have ht : ∀ x ∈ t, p x = true → q x = true := by
      intro x hx
      exact h x (List.mem_cons_of_mem a hx)
    rw [List.filter_cons]
    cases hqa : q a with
    | true =>
      simp only [hqa, if_true]
      rw [List.find?_cons, List.find?_cons]
      cases hp : p a
      · exact ih ht
      · rfl
    | false =>
      have hpa : p a = false := by
        cases hpa2 : p a
        · rfl
        · have hcontra := h a (List.mem_cons_self a t) hpa2
          rw [hqa] at hcontra
          exact absurd hcontra (by decide)
      simp only [hqa, Bool.false_eq_true, if_false]
      rw [ih ht, List.find?_cons, hpa]

/-- The unify education table is the architect table with the five extra
keys removed, in order. -/
theorem education_table_unify_eq_filter :
    education_table.filter
        (fun kv => !(["MD", "JD", "MSc", "BSc", "BSN"] : List String).contains kv.1) =
      education_table_unify := by decide

theorem education_map_agree (s : String)
    (h : s ∉ (["MD", "JD", "MSc", "BSc", "BSN"] : List String)) :
    education_map s = education_map_unify s := by
  unfold education_map education_map_unify
  rw [← education_table_unify_eq_filter]
  rw [find?_of_filter_agree]
  intro kv _ hkv
  have hkv1 : kv.1 = s := by simpa using hkv
  subst hkv1
  simpa using h

theorem processEmployee_agree (e : EmployeeInput)
    (hedu : e.studies ∉ (["MD", "JD", "MSc", "BSc", "BSN"] : List String))
    (htal : talent_score e.talent = talent_score_unify e.talent) :
    processEmployee e = processEmployee_unify e := by
  unfold processEmployee processEmployee_unify
  cases e.rating with
  | none => rfl
  | some r => rw [htal, education_map_agree e.studies hedu]

theorem processed_staff_agree (emps : List EmployeeInput)
    (hedu : ∀ e ∈ emps, e.studies ∉ (["MD", "JD", "MSc", "BSc", "BSN"] : List String))
    (htal : ∀ e ∈ emps, talent_score e.talent = talent_score_unify e.talent) :
    processed_staff emps = processed_staff_unify emps := by
  unfold processed_staff processed_staff_unify
  induction emps with
  | nil => rfl
  | cons e t ih =>
    rw [List.filterMap_cons, List.filterMap_cons]
    rw [processEmployee_agree e (hedu e (List.mem_cons_self e t))
      (htal e (List.mem_cons_self e t))]
    rw [ih (fun x hx => hedu x (List.mem_cons_of_mem e hx))
      (fun x hx => htal x (List.mem_cons_of_mem e hx))]

/-! ## The claims -/

/-- C1: for every employee record processed by `execute_scoring_algorithm`,
the final score equals `rating*0.5 + talentScore*0.3 + educationScore*0.2`
rounded to 2 decimal places; in particular, a record with `rating=5.0`,
`talent="High"`, `studies="PhD"` receives `finalScore` exactly 5.0. -/
theorem c1_final_score_formula :
    (∀ emps : List EmployeeInput, ∀ p ∈ processed_staff emps,
      ∃ e ∈ emps, ∃ r : ℚ, e.rating = some r ∧
        p.final_score = round2 (r * WEIGHT_PERFORMANCE +
          (talent_score e.talent : ℚ) * WEIGHT_TALENT +
          (education_map e.studies : ℚ) * WEIGHT_EDUCATION)) ∧
    (processed_staff [ePhD]).map (·.final_score) = [5] := by
  constructor
  · intro emps p hp
    rcases List.mem_filterMap.mp hp with ⟨e, he, hpe⟩
    refine ⟨e, he, ?_⟩
    cases hr : e.rating with
    | none =>
      simp only [processEmployee, hr] at hpe
      simp at hpe
    | some r =>
      refine ⟨r, rfl, ?_⟩
      simp only [processEmployee, hr] at hpe
      injection hpe with hpe
      subst hpe
      rfl
  · simp only [processed_staff, List.filterMap_cons, List.filterMap_nil,
      pe_ePhD, List.map_cons, List.map_nil, recPhD]

/-- Witness for C1 at the concrete record with rating 5.0, talent "High"
and studies "PhD": its final score of 5.0 satisfies the formula. -/
theorem c1_witness :
    ∃ e ∈ [ePhD], ∃ r : ℚ, e.rating = some r ∧
      recPhD.final_score = round2 (r * WEIGHT_PERFORMANCE +
        (talent_score e.talent : ℚ) * WEIGHT_TALENT +
        (education_map e.studies : ℚ) * WEIGHT_EDUCATION) :=
  c1_final_score_formula.1 [ePhD] recPhD
    (by simp [processed_staff, pe_ePhD])

/-- C2: the headquarters team is the first 20 records of the ranked list
and the remote team is the remainder, so the two counts add up to the
number of valid records and the headquarters count is at most 20. -/
theorem c2_capacity_partition (emps : List EmployeeInput) :
    (execute_scoring_algorithm emps).statistics.hq_count +
        (execute_scoring_algorithm emps).statistics.remote_count =
      (processed_staff emps).length ∧
    (execute_scoring_algorithm emps).statistics.hq_count ≤ 20 ∧
    (execute_scoring_algorithm emps).allocation_summary.headquarters_roster =
      ((sortDesc (processed_staff emps)).take 20).map (·.name) ∧
    (execute_scoring_algorithm emps).allocation_summary.remote_roster =
      ((sortDesc (processed_staff emps)).drop 20).map (·.name) ∧
    (execute_scoring_algorithm emps).statistics.total_employees =
      (processed_staff emps).length := by
  have hlen : (sortDesc (processed_staff emps)).length =
      (processed_staff emps).length := (sortDesc_perm _).length_eq
  simp only [execute_scoring_algorithm, buildReport, HQ_CAPACITY]
  refine ⟨?_, ?_, trivial, trivial, hlen⟩
  · rw [List.length_take, List.length_drop, hlen]
    omega
  · rw [List.length_take]
    omega

/-- Witness for C2 at the risk batch: 3 + 0 = 3 valid records, and the
headquarters count is at most 20. -/
theorem c2_witness :
    (execute_scoring_algorithm riskBatch).statistics.hq_count +
        (execute_scoring_algorithm riskBatch).statistics.remote_count =
      (processed_staff riskBatch).length ∧
    (execute_scoring_algorithm riskBatch).statistics.hq_count ≤ 20 :=
  ⟨(c2_capacity_partition riskBatch).1, (c2_capacity_partition riskBatch).2.1⟩

/-- C3: a processed record appears in `risk_flags` exactly when its final
score is strictly below the mean final score of the valid records and its
salary is strictly greater than 100000; every flag carries the fixed
discrepancy label and a salary strictly above (hence never equal to)
100000. -/
theorem c3_risk_flags (emps : List EmployeeInput) :
    (∀ f : RiskFlag, f ∈ (execute_scoring_algorithm emps).risk_flags ↔
      ∃ p, p ∈ processed_staff emps ∧
        p.final_score < avgOf (processed_staff emps) ∧
        p.salary > 100000 ∧ f = mkRiskFlag p) ∧
    (∀ f ∈ (execute_scoring_algorithm emps).risk_flags,
      f.discrepancy = "High Salary / Low Merit" ∧ f.salary > 100000 ∧
        f.salary ≠ 100000) := by
  have havg : avgOf (sortDesc (processed_staff emps)) =
      avgOf (processed_staff emps) := avgOf_perm _ _ (sortDesc_perm _)
  constructor
  · intro f
    simp only [execute_scoring_algorithm, buildReport]
    rw [havg]
    constructor
    · intro hf
      rcases List.mem_map.mp hf with ⟨p, hpmem, hpf⟩
      rcases List.mem_filter.mp hpmem with ⟨hpr, hcond⟩
      have hc : riskCond (avgOf (processed_staff emps)) p :=
        of_decide_eq_true hcond
      exact ⟨p, (sortDesc_perm (processed_staff emps)).mem_iff.mp hpr,
        hc.1, hc.2, hpf.symm⟩
    · rintro ⟨p, hpmem, hlt, hsal, rfl⟩
      refine List.mem_map.mpr ⟨p, ?_, rfl⟩
      refine List.mem_filter.mpr ⟨?_, ?_⟩
      · exact (sortDesc_perm (processed_staff emps)).mem_iff.mpr hpmem
      · exact decide_eq_true ⟨hlt, hsal⟩
  · intro f hf
    simp only [execute_scoring_algorithm, buildReport] at hf
    rcases List.mem_map.mp hf with ⟨p, hpmem, hpf⟩
    rcases List.mem_filter.mp hpmem with ⟨hpr, hcond⟩
    have hc : riskCond (avgOf (sortDesc (processed_staff emps))) p :=
      of_decide_eq_true hcond
    subst hpf
    exact ⟨rfl, hc.2, ne_of_gt hc.2⟩

/-- Witness for C3: in the risk batch, Ann (score 1.33 < mean 4/3, salary
150000 > 100000) is flagged. -/
theorem c3_witness :
    mkRiskFlag recRiskA ∈ (execute_scoring_algorithm riskBatch).risk_flags :=
  ((c3_risk_flags riskBatch).1 (mkRiskFlag recRiskA)).mpr
    ⟨recRiskA,
      by rw [processed_staff_riskBatch]; exact List.mem_cons_self _ _,
      by rw [avg_processed_riskBatch]; norm_num [recRiskA],
      by norm_num [recRiskA], rfl⟩

/-- C4: the ranking sorts the valid scored records by final score in
descending order and is stable: it is a permutation, it is pairwise
descending, records of any fixed score keep their original relative
order, and the concrete tied input [Alice:5.0, Bob:5.0] comes out in
input order. -/
theorem c4_ranking_stable :
    (∀ emps : List EmployeeInput,
      (sortDesc (processed_staff emps)).Pairwise scoreGE ∧
      List.Perm (sortDesc (processed_staff emps)) (processed_staff emps) ∧
      ∀ s : ℚ, (sortDesc (processed_staff emps)).filter
          (fun p => decide (p.final_score = s)) =
        (processed_staff emps).filter (fun p => decide (p.final_score = s))) ∧
    (execute_scoring_algorithm
        [eTieA, eTieB]).allocation_summary.headquarters_roster =
      ["Alice", "Bob"] := by
  constructor
  · intro emps
    exact ⟨sortDesc_pairwise _, sortDesc_perm _, fun s => filter_sortDesc s _⟩
  · simp only [execute_scoring_algorithm, buildReport, processed_staff_tieBatch,
      sortDesc_tieBatch, HQ_CAPACITY]
    simp [recTieA, recTieB]

/-- C5: when no record survives processing, the report carries average
0.0, total 0, and no risk flags; the division by the record count is
guarded. -/
theorem c5_empty_guard (emps : List EmployeeInput)
    (h : processed_staff emps = []) :
    (execute_scoring_algorithm emps).statistics.average_merit_score = 0 ∧
    (execute_scoring_algorithm emps).statistics.total_employees = 0 ∧
    (execute_scoring_algorithm emps).risk_flags = [] := by
  have havg : avgOf ([] : List ScoredRecord) = 0 := by norm_num [avgOf]
  have h0 : round2 0 = 0 := by
    have hh := round2_eq_int 0 0 (by norm_num)
    simpa using hh
  simp [execute_scoring_algorithm, buildReport, h, sortDesc, havg, h0]

/-- Witness for C5 at the empty input list. -/
theorem c5_witness :
    (execute_scoring_algorithm []).statistics.average_merit_score = 0 ∧
    (execute_scoring_algorithm []).statistics.total_employees = 0 ∧
    (execute_scoring_algorithm []).risk_flags = [] :=
  c5_empty_guard [] rfl

/-- C6: the engine never fails on a malformed individual record — the
report for any input equals the report for the input with malformed
records (those whose rating fails numeric coercion) removed, the other
records being processed unaffected — and the caller always receives a
complete report with status "success". -/
theorem c6_malformed_skipped (emps : List EmployeeInput) :
    execute_scoring_algorithm emps =
      execute_scoring_algorithm (emps.filter (fun e => e.rating.isSome)) ∧
    (execute_scoring_algorithm emps).status = "success" := by
  refine ⟨?_, rfl⟩
  unfold execute_scoring_algorithm
  congr 1
  unfold processed_staff
  induction emps with
  | nil => rfl
  | cons e t ih =>
    rw [List.filter_cons]
    cases hr : e.rating with
    | none =>
      have hpe : processEmployee e = none := by simp [processEmployee, hr]
      have hcnone : ¬ ((none : Option ℚ).isSome = true) := by simp
      rw [List.filterMap_cons, hpe, if_neg hcnone]
      exact ih
    | some r =>
      have hcsome : ((some r : Option ℚ).isSome = true) := rfl
      rw [if_pos hcsome, List.filterMap_cons, List.filterMap_cons, ih]

/-- C7: education normalization is the exact case-sensitive table
PhD/Doctorate/MD/JD→5, Master/Masters/MSc→4, Bachelor/Bachelors/BSc/BSN→3,
Associate→2, High School→1, with every other string mapping to the
default 1. -/
theorem c7_education_table_exact :
    education_map "PhD" = 5 ∧ education_map "Doctorate" = 5 ∧
    education_map "MD" = 5 ∧ education_map "JD" = 5 ∧
    education_map "Master" = 4 ∧ education_map "Masters" = 4 ∧
    education_map "MSc" = 4 ∧ education_map "Bachelor" = 3 ∧
    education_map "Bachelors" = 3 ∧ education_map "BSc" = 3 ∧
    education_map "BSN" = 3 ∧ education_map "Associate" = 2 ∧
    education_map "High School" = 1 ∧
    ∀ s : String, s ∉ education_table.map Prod.fst → education_map s = 1 := by
  refine ⟨by decide, by decide, by decide, by decide, by decide, by decide,
    by decide, by decide, by decide, by decide, by decide, by decide,
    by decide, ?_⟩
  intro s hs
  unfold education_map
  have hnone : education_table.find? (fun kv => kv.1 == s) = none := by
    rw [List.find?_eq_none]
    intro kv hkv hbe
    apply hs
    have hkv1 : kv.1 = s := by simpa using hbe
    exact hkv1 ▸ List.mem_map_of_mem Prod.fst hkv
  rw [hnone]

/-- Witness for C7: lower-case variants are not in the table and map to
the default 1. -/
theorem c7_witness :
    education_map "phd" = 1 ∧ education_map "masters" = 1 :=
  ⟨c7_education_table_exact.2.2.2.2.2.2.2.2.2.2.2.2.2 "phd" (by decide),
   c7_education_table_exact.2.2.2.2.2.2.2.2.2.2.2.2.2 "masters" (by decide)⟩

/-- C8: for a record whose rating lies in [0, 5], the final score is an
exact 2-decimal value and lies in the closed interval [0.5, 5.0]. -/
theorem c8_final_score_range (emp : EmployeeInput) (r : ℚ) (rec : ScoredRecord)
    (hr : emp.rating = some r) (h0 : 0 ≤ r) (h5 : r ≤ 5)
    (hp : processEmployee emp = some rec) :
    (∃ n : ℤ, rec.final_score = (n:ℚ)/100) ∧
      1/2 ≤ rec.final_score ∧ rec.final_score ≤ 5 := by
  simp only [processEmployee, hr] at hp
  injection hp with hp
  subst hp
  obtain ⟨ht1, ht5⟩ := talent_score_range emp.talent
  obtain ⟨he1, he5⟩ := education_map_range emp.studies
  have htq1 : (1:ℚ) ≤ ((talent_score emp.talent : ℤ) : ℚ) := by exact_mod_cast ht1
  have htq5 : ((talent_score emp.talent : ℤ) : ℚ) ≤ 5 := by exact_mod_cast ht5
  have heq1 : (1:ℚ) ≤ ((education_map emp.studies : ℤ) : ℚ) := by exact_mod_cast he1
  have heq5 : ((education_map emp.studies : ℤ) : ℚ) ≤ 5 := by exact_mod_cast he5
  have hfs_lo : ((50:ℤ):ℚ)/100 ≤ r * WEIGHT_PERFORMANCE +
      ((talent_score emp.talent : ℤ) : ℚ) * WEIGHT_TALENT +
      ((education_map emp.studies : ℤ) : ℚ) * WEIGHT_EDUCATION := by
    simp only [WEIGHT_PERFORMANCE, WEIGHT_TALENT, WEIGHT_EDUCATION]
    push_cast
    linarith
  have hfs_hi : r * WEIGHT_PERFORMANCE +
      ((talent_score emp.talent : ℤ) : ℚ) * WEIGHT_TALENT +
      ((education_map emp.studies : ℤ) : ℚ) * WEIGHT_EDUCATION ≤
      ((500:ℤ):ℚ)/100 := by
    simp only [WEIGHT_PERFORMANCE, WEIGHT_TALENT, WEIGHT_EDUCATION]
    push_cast
    linarith
  have hlo := le_round2 50 _ hfs_lo
  have hhi := round2_le 500 _ hfs_hi
  refine ⟨⟨pyRound ((r * WEIGHT_PERFORMANCE +
      ((talent_score emp.talent : ℤ) : ℚ) * WEIGHT_TALENT +
      ((education_map emp.studies : ℤ) : ℚ) * WEIGHT_EDUCATION) * 100), rfl⟩,
    ?_, ?_⟩
  · have h50 : ((50:ℤ):ℚ)/100 = 1/2 := by norm_num
    rw [h50] at hlo
    exact hlo
  · have h500 : ((500:ℤ):ℚ)/100 = 5 := by norm_num
    rw [h500] at hhi
    exact hhi

/-- Witness for C8 at the PhD employee: rating 5 lies in [0,5] and the
final score 5.0 is a 2-decimal value in [0.5, 5.0]. -/
theorem c8_witness :
    (∃ n : ℤ, recPhD.final_score = (n:ℚ)/100) ∧
      1/2 ≤ recPhD.final_score ∧ recPhD.final_score ≤ 5 :=
  c8_final_score_range ePhD 5 recPhD rfl (by norm_num) (by norm_num) pe_ePhD

/-- C9 counterexample: on the single employee with `studies="MSc"` the two
copies of the engine disagree — the architect copy maps MSc to education
score 4 (average 2.6), the unify copy to the default 1 (average 2.0) — so
the reports are not equal. -/
theorem c9_counterexample :
    ¬ ((execute_scoring_algorithm [eMSc]).statistics =
        (execute_scoring_algorithm_unify [eMSc]).statistics) := by
  intro h
  have h1 := report_mscA_avg
  rw [h, report_mscU_avg] at h1
  norm_num at h1

/-- C9 (amended): on inputs whose `studies` avoids the five keys present
only in the architect table (MD, JD, MSc, BSc, BSN) and whose talent
normalizes to the same score under both copies, the two engines agree on
status, statistics, top talent and rosters, and the architect risk flags
are exactly the unify risk records with the fixed discrepancy label
attached. -/
theorem c9_engines_agree (emps : List EmployeeInput)
    (hedu : ∀ e ∈ emps,
      e.studies ∉ (["MD", "JD", "MSc", "BSc", "BSN"] : List String))
    (htal : ∀ e ∈ emps, talent_score e.talent = talent_score_unify e.talent) :
    (execute_scoring_algorithm emps).status =
      (execute_scoring_algorithm_unify emps).status ∧
    (execute_scoring_algorithm emps).statistics =
      (execute_scoring_algorithm_unify emps).statistics ∧
    (execute_scoring_algorithm emps).top_talent_hq =
      (execute_scoring_algorithm_unify emps).top_talent_hq ∧
    (execute_scoring_algorithm emps).allocation_summary =
      (execute_scoring_algorithm_unify emps).allocation_summary ∧
    (execute_scoring_algorithm emps).risk_flags =
      (execute_scoring_algorithm_unify emps).risk_flags.map mkRiskFlag := by
  have hps := processed_staff_agree emps hedu htal
  unfold execute_scoring_algorithm execute_scoring_algorithm_unify
  rw [← hps]
  exact ⟨rfl, rfl, rfl, rfl, rfl⟩

/-- Witness for C9 (amended) at the PhD employee, which uses none of the
five architect-only education keys and a common talent label. -/
theorem c9_witness :
    (execute_scoring_algorithm [ePhD]).status =
      (execute_scoring_algorithm_unify [ePhD]).status ∧
    (execute_scoring_algorithm [ePhD]).statistics =
      (execute_scoring_algorithm_unify [ePhD]).statistics ∧
    (execute_scoring_algorithm [ePhD]).top_talent_hq =
      (execute_scoring_algorithm_unify [ePhD]).top_talent_hq ∧
    (execute_scoring_algorithm [ePhD]).allocation_summary =
      (execute_scoring_algorithm_unify [ePhD]).allocation_summary ∧
    (execute_scoring_algorithm [ePhD]).risk_flags =
      (execute_scoring_algorithm_unify [ePhD]).risk_flags.map mkRiskFlag :=
  c9_engines_agree [ePhD] (by decide) (by decide)

/-- C10: the risk predicate compares against the exact mean of the rounded
final scores while the report's statistics carry that mean rounded to
2 decimals; on the risk batch a record is flagged although its final score
equals (is not below) the reported average. -/
theorem c10_unrounded_mean_in_risk :
    (∀ emps : List EmployeeInput,
      (execute_scoring_algorithm emps).statistics.average_merit_score =
        round2 (avgOf (processed_staff emps)) ∧
      ∀ f ∈ (execute_scoring_algorithm emps).risk_flags,
        f.merit_score < avgOf (processed_staff emps)) ∧
    ∃ f ∈ (execute_scoring_algorithm riskBatch).risk_flags,
      (execute_scoring_algorithm riskBatch).statistics.average_merit_score ≤
        f.merit_score := by
  constructor
  · intro emps
    have havg : avgOf (sortDesc (processed_staff emps)) =
        avgOf (processed_staff emps) := avgOf_perm _ _ (sortDesc_perm _)
    constructor
    · simp only [execute_scoring_algorithm, buildReport]
      rw [havg]
    · intro f hf
      simp only [execute_scoring_algorithm, buildReport] at hf
      rcases List.mem_map.mp hf with ⟨p, hpmem, hpf⟩
      rcases List.mem_filter.mp hpmem with ⟨hpr, hcond⟩
      have hc : riskCond (avgOf (sortDesc (processed_staff emps))) p :=
        of_decide_eq_true hcond
      rw [← hpf]
      rw [havg] at hc
      exact hc.1
  · refine ⟨mkRiskFlag recRiskA, ?_, ?_⟩
    · rw [report_riskBatch_flags]
      exact List.mem_singleton_self _
    · rw [report_riskBatch_avg]
      norm_num [mkRiskFlag, recRiskA]

/-- Witness for C10: Ann's flag in the risk batch has merit score strictly
below the exact (unrounded) batch mean. -/
theorem c10_witness :
    (mkRiskFlag recRiskA).merit_score < avgOf (processed_staff riskBatch) :=
  (c10_unrounded_mean_in_risk.1 riskBatch).2 (mkRiskFlag recRiskA)
    (by rw [report_riskBatch_flags]; exact List.mem_singleton_self _)

end Unify
